import Mathlib

/-!
Verification development for the caterwaul-ruby combinator parser
(src/ruby-parser.js).  The JavaScript module is shallowly embedded:

* Syntax nodes (`$.ruby.syntax`) become the inductive `RNode`, carrying a
  `data` tag, a children list, a comments list, and an optional position.
  A position is either a raw character offset (set during parsing) or a
  resolved line/column record (set by the position-mapping pass).
* The position table built in `$.ruby.parse` becomes `posTable`.
* `position_map`, `rotate_left`, `replicate`, `metadata_from`,
  `fix_precedence`, `precedence_of`, `right_associative`, `zip_unary` and
  `zip_binary` are translated function by function from the source.
* The combinator substrate (`caterwaul.parser`: linear_string_state,
  alternation, sequencing `bfc`/`bfs`, `optional`, `many`, `map`,
  `map_state`) is an external collaborator of this repository; it is
  modelled from the spec (section 4.1): a cursor over the input with PEG
  semantics -- ordered alternation committing to the first success, pure
  backtracking by re-running alternatives from the saved state.
* The grammar productions (`identifier`, `number`, `symbol`, `leaf`,
  `group`, `binary`, `unary`, `expression` and the operator terminals)
  are translated from the first snapshot in src/ruby-parser.js, which the
  claims cite by line number.  That snapshot wires `$.ruby.parser` to an
  undefined forward reference `statements`; the sibling snapshots of the
  same module (the second half of src/ruby-parser.js and
  src/unnamed/part_000) wire the entry point to the expression
  production, which is the only top-level production any snapshot
  defines, so `parse` here enters at `expression`.
-/

namespace CaterwaulRuby

/-- A resolved source position: the line/column records produced by the
position table in `$.ruby.parse`.  Lines count from 0; a newline itself is
recorded with column -1 (source comment, lines 80-83). -/
structure LC where
  line : Nat
  column : Int
deriving DecidableEq, Repr

/-- The value stored in a node's `_position` field: either a raw character
offset recorded during parsing, or a resolved line/column record written
by the position-mapping pass.  JavaScript stores these as a number or an
object in the same dynamically-typed slot. -/
inductive PosVal where
  | raw (k : Nat)
  | res (p : LC)
deriving DecidableEq, Repr

/-- A caterwaul-ruby syntax node (`$.ruby.syntax`, src/ruby-parser.js
lines 63-78): a string `data` tag, an ordered children list (the
array-like elements of the JS node), an ordered comments list
(`_comments`) and the `_position` slot (`none` models JS null/undefined). -/
inductive RNode where
  | mk (data : String) (children : List RNode) (comments : List RNode) (pos : Option PosVal)

mutual

def RNode.decEq : (a b : RNode) → Decidable (a = b)
  | .mk d1 c1 m1 p1, .mk d2 c2 m2 p2 =>
    if hd : d1 = d2 then
      match RNode.decEqList c1 c2 with
      | isTrue hc =>
        match RNode.decEqList m1 m2 with
        | isTrue hm =>
          if hp : p1 = p2 then isTrue (by rw [hd, hc, hm, hp])
          else isFalse (by intro h; injection h; contradiction)
        | isFalse hm => isFalse (by intro h; injection h; contradiction)
      | isFalse hc => isFalse (by intro h; injection h; contradiction)
    else isFalse (by intro h; injection h; contradiction)

def RNode.decEqList : (a b : List RNode) → Decidable (a = b)
  | [], [] => isTrue rfl
  | [], _ :: _ => isFalse (by intro h; injection h)
  | _ :: _, [] => isFalse (by intro h; injection h)
  | x :: xs, y :: ys =>
    match RNode.decEq x y, RNode.decEqList xs ys with
    | isTrue h1, isTrue h2 => isTrue (by rw [h1, h2])
    | isFalse h1, _ => isFalse (by intro h; injection h; contradiction)
    | _, isFalse h2 => isFalse (by intro h; injection h; contradiction)

end

instance : DecidableEq RNode := RNode.decEq

def RNode.data : RNode → String
  | .mk d _ _ _ => d

def RNode.children : RNode → List RNode
  | .mk _ cs _ _ => cs

def RNode.comments : RNode → List RNode
  | .mk _ _ cm _ => cm

def RNode.pos : RNode → Option PosVal
  | .mk _ _ _ p => p

/-- `metadata_from(n)` (line 77): overwrite this node's `_comments` and
`_position` with those of `n`, keeping data and children. -/
def RNode.metadata_from : RNode → RNode → RNode
  | .mk d ch _ _, .mk _ _ cm p => .mk d ch cm p

/-- `replicate(data, kids...)` (line 75): build a fresh node with the
given data and children, copying this node's metadata via
`metadata_from`. -/
def RNode.replicate (src : RNode) (d : String) (kids : List RNode) : RNode :=
  RNode.metadata_from (RNode.mk d kids [] none) src

/-- `comment(c)` (line 70) pushes one comment; the comment-skipping
filter attaches each captured comment in order, so attaching a list
appends it to `_comments`. -/
def RNode.addComments : RNode → List RNode → RNode
  | .mk d ch cm p, cs => .mk d ch (cm ++ cs) p

def RNode.withPos : RNode → Option PosVal → RNode
  | .mk d ch cm _, p => .mk d ch cm p

/-- `rotate_left()` (line 78):
`this[1].replicate(this[1].data, this.replicate(this.data, this[0], this[1][0]), this[1][1])`.
For a node `(op1 left (op2 mid right))` this produces
`(op2 (op1 left mid) right)`, the outer node keeping the old inner node's
metadata and the new inner node keeping the old outer node's metadata.
Call sites only rotate when the right child is itself a binary reduction,
so the two-child pattern is the exercised case; any other shape is
returned unchanged. -/
def rotate_left (n : RNode) : RNode :=
  match n with
  | .mk d [l, .mk d2 [m, r] c2 p2] c1 p1 =>
      RNode.replicate (.mk d2 [m, r] c2 p2) d2
        [RNode.replicate (.mk d [l, .mk d2 [m, r] c2 p2] c1 p1) d [l, m], r]
  | other => other

/-- The ordered operator-group list `(ops1 + ops2)` feeding
`precedence_of` (lines 179-182), transcribed token for token; the "#"
entries are the group boundary markers. -/
def precOps : List String :=
  [".", "#", "u!", "u~", "u+", "#", "**", "#", "u-", "#", "*", "/", "%", "#",
   "+", "-", "#", "<<", ">>", "#", "&", "#", "|", "^", "#", ">", ">=", "<", "<=", "#",
   "<=>", "==", "===", "!=", "=~", "!~", "#", "&&", "#", "||", "#", "..", "...", "#", "?", "#",
   "rescue", "#", "=", "+=", "-=", "*=", "/=", "%=", "**=", "<<=", ">>=", "&=", "^=", "|=", "&&=", "||=", "#",
   "defined?", "#", "not", "#", "and", "or", "#", "if", "unless", "while", "until"]

/-- The running-counter construction of the precedence object: each "#"
bumps the counter (starting at 1) and is filtered out; every other token
is paired with the current counter. -/
def buildPrecedence : List String → Nat → List (String × Nat)
  | [], _ => []
  | t :: ts, p =>
      if t = "#" then buildPrecedence ts (p + 1)
      else (t, p) :: buildPrecedence ts p

def precTable : List (String × Nat) := buildPrecedence precOps 1

/-- `precedence_of[x]` (lines 179-182): the precedence object lookup.
`none` models the JS `undefined` read for a tag with no entry (whose
unary-plus coercion is NaN, making every comparison in `fix_precedence`
false). Lower values bind tighter. -/
def precedence_of (s : String) : Option Nat :=
  (precTable.find? (fun e => e.1 = s)).map (fun e => e.2)

/-- `right_associative` (line 186): the fixed right-associativity set. -/
def right_associative (s : String) : Bool :=
  ["u!", "u~", "u+", "**", "u-", "?", "=", "+=", "-=", "*=", "/=", "%=",
   "**=", "<<=", ">>=", "&=", "^=", "|=", "&&=", "||=", "not"].contains s

/-- `fix_precedence(n)` (line 195):
`+precedence_of[n[1].data] + ! is(n.data, right_associative) > precedence_of[n.data] ? n.rotate_left() : n`.
The JS comparison is false whenever either lookup is undefined (NaN), so
the node is returned unchanged in that case. -/
def fix_precedence (n : RNode) : RNode :=
  match n.children.get? 1 with
  | some r =>
      match precedence_of r.data, precedence_of n.data with
      | some q2, some q1 =>
          if q2 + (if right_associative n.data then 0 else 1) > q1 then rotate_left n else n
      | _, _ => n
  | none => n

/-- `zip_binary(xs) = xs[1].push(xs[0]).push(xs[2])` (line 197): the
operator node becomes the root with children `[left, right]`. -/
def zip_binary (l op r : RNode) : RNode :=
  .mk op.data (op.children ++ [l, r]) op.comments op.pos

/-- `zip_unary(xs) = xs[0].push(xs[1])` (line 196). -/
def zip_unary (op e : RNode) : RNode :=
  .mk op.data (op.children ++ [e]) op.comments op.pos

/-- The position-table builder in `$.ruby.parse` (line 90): one entry per
input character, produced by a running line counter starting at 0 and a
running column counter starting at -1.  A newline (char code 10) bumps
the line and resets the column to -1; any other character increments the
column. -/
def posTableAux : List Char → Nat → Int → List LC
  | [], _, _ => []
  | c :: rest, l, col =>
      let l2 := if c = '\n' then l + 1 else l
      let col2 := if c = '\n' then (-1 : Int) else col + 1
      ⟨l2, col2⟩ :: posTableAux rest l2 col2

def posTable (s : List Char) : List LC := posTableAux s 0 (-1)

/-- The JS array read `m[p]` performed by `position_map` (line 73): a raw
offset indexes the table (undefined past the end); indexing with null,
undefined or an already-resolved record reads a non-existent property and
yields undefined (`none`). -/
def jsIndex (m : List LC) : Option PosVal → Option PosVal
  | some (.raw k) => (m.get? k).map (fun lc => PosVal.res lc)
  | _ => none

mutual

/-- `position_map(m)` (line 73):
`this.position(m[this.position()]).each(_.position_map(m))` -- rewrite
this node's position through the table, then recurse into the children
(`each` visits the array-like children only; the `_comments` list is not
visited). -/
def position_map (m : List LC) : RNode → RNode
  | .mk d cs cm p => .mk d (position_map_children m cs) cm (jsIndex m p)

def position_map_children (m : List LC) : List RNode → List RNode
  | [] => []
  | t :: ts => position_map m t :: position_map_children m ts

end

/-!
## Combinator substrate

Modelled from the spec: the combinator-execution substrate
(`caterwaul.parser`) is an external collaborator, described in spec
section 4.1 as a cursor-style parsing state supporting sequencing
(`bfc` collects all results, `bfs` keeps the later one), ordered
alternation with first-success PEG semantics, optional/zero-or-more
repetition, result transformation (`map`), and backtracking scoped to an
alternation.  A parser maps a state (remaining input plus the absolute
offset of its head) to an optional result and successor state.
-/

/-- A cursor into the input: the remaining characters and the absolute
offset of the first remaining character (`linear_string_state`). -/
structure PState where
  rest : List Char
  off : Nat
deriving DecidableEq, Repr

abbrev Parser (α : Type) : Type := PState → Option (α × PState)

def advance (st : PState) (n : Nat) : PState := ⟨st.rest.drop n, st.off + n⟩

def pfail {α : Type} : Parser α := fun _ => none

/-- Ordered alternation: first success wins (PEG). -/
def palt {α : Type} (p q : Parser α) : Parser α := fun st =>
  match p st with
  | some r => some r
  | none => q st

def pmap {α β : Type} (f : α → β) (p : Parser α) : Parser β := fun st =>
  (p st).map (fun r => (f r.1, r.2))

/-- Sequencing that keeps only the second result (`bfs`). -/
def pbfs {α β : Type} (p : Parser α) (q : Parser β) : Parser β := fun st =>
  match p st with
  | none => none
  | some (_, st2) => q st2

/-- Sequencing that collects both results (`bfc`, binary form). -/
def pbfc2 {α β : Type} (p : Parser α) (q : Parser β) : Parser (α × β) := fun st =>
  match p st with
  | none => none
  | some (a, st2) =>
    match q st2 with
    | none => none
    | some (b, st3) => some ((a, b), st3)

/-- Sequencing that collects all three results (`bfc`, ternary form). -/
def pbfc3 {α β γ : Type} (p : Parser α) (q : Parser β) (r : Parser γ) :
    Parser (α × β × γ) := fun st =>
  match pbfc2 p (pbfc2 q r) st with
  | none => none
  | some ((a, (b, c)), st2) => some ((a, b, c), st2)

/-- Greedy repetition for `optional(many(p))`: zero or more matches,
collected in order.  A fuel argument bounds the loop; each line-comment
match consumes at least two characters, so fuel `rest.length + 1` never
runs out before the parser stops matching. -/
def manyAux {α : Type} (p : Parser α) : Nat → PState → (List α × PState)
  | 0, st => ([], st)
  | Nat.succ k, st =>
    match p st with
    | none => ([], st)
    | some (a, st2) =>
      if st2.rest.length < st.rest.length then
        match manyAux p k st2 with
        | (as2, st3) => (a :: as2, st3)
      else ([a], st2)

def pmanyOpt {α : Type} (p : Parser α) (st : PState) : List α × PState :=
  manyAux p (st.rest.length + 1) st

/-!
## Lexical filters and terminals (src/ruby-parser.js lines 150-176)
-/

def isJsSpace (c : Char) : Bool :=
  c = ' ' || c = '\t' || c = '\n' || c = '\r' || c = '\x0b' || c = '\x0c'

/-- JS `\w`: ASCII letters, digits and underscore. -/
def isWordChar (c : Char) : Bool := c.isAlpha || c.isDigit || c = '_'

/-- Regex-style token matchers return the matched character run. -/
def pregex (m : List Char → Option (List Char)) : Parser (List Char) := fun st =>
  (m st.rest).map (fun w => (w, advance st w.length))

/-- `linear_string`: match a literal token. -/
def pstringL (tok : String) : Parser (List Char) := fun st =>
  if st.rest.take tok.toList.length = tok.toList then
    some (tok.toList, advance st tok.toList.length)
  else none

/-- `/\s+/` (whitespace, line 166). -/
def whitespaceChars (l : List Char) : Option (List Char) :=
  let w := l.takeWhile isJsSpace
  if w.isEmpty then none else some w

/-- `/#.*[\n\r]{1,2}/` (line_comment, line 167): a hash, a greedy run of
non-newline characters, then one or two newline characters (two when
available, since the bounded repetition is greedy). -/
def lineCommentChars (l : List Char) : Option (List Char) :=
  match l with
  | '#' :: rest =>
    let body := rest.takeWhile (fun c => !(c = '\n' || c = '\r'))
    match rest.drop body.length with
    | c1 :: c2 :: _ =>
      if c1 = '\n' || c1 = '\r' then
        if c2 = '\n' || c2 = '\r' then some ('#' :: body ++ [c1, c2])
        else some ('#' :: body ++ [c1])
      else none
    | [c1] => if c1 = '\n' || c1 = '\r' then some ('#' :: body ++ [c1]) else none
    | [] => none
  | _ => none

/-- `/\w+[?!]?/` (identifier, line 168). -/
def identChars (l : List Char) : Option (List Char) :=
  let w := l.takeWhile isWordChar
  if w.isEmpty then none
  else
    match l.drop w.length with
    | c :: _ => if c = '?' || c = '!' then some (w ++ [c]) else some w
    | [] => some w

/-- `/\$\w+[?!]?/` (global, line 169). -/
def globalChars (l : List Char) : Option (List Char) :=
  match l with
  | '$' :: rest => (identChars rest).map (fun w => '$' :: w)
  | _ => none

/-- `/@\w+[?!]?/` (instance_variable, line 170). -/
def ivarChars (l : List Char) : Option (List Char) :=
  match l with
  | '@' :: rest => (identChars rest).map (fun w => '@' :: w)
  | _ => none

/-- The optional exponent group `(?:[Ee][-+]?\d{1,3})?`: greedy, but
dropped entirely when no digit follows the marker. -/
def expChars (l : List Char) : List Char :=
  match l with
  | c :: rest =>
    if c = 'E' || c = 'e' then
      match rest with
      | s :: rest2 =>
        if s = '+' || s = '-' then
          let ds := (rest2.takeWhile Char.isDigit).take 3
          if ds.isEmpty then [] else c :: s :: ds
        else
          let ds := (rest.takeWhile Char.isDigit).take 3
          if ds.isEmpty then [] else c :: ds
      | [] => []
    else []
  | [] => []

/-- `/\d+\.\d+(?:[Ee][-+]?\d{1,3})?|\d+|0x[0-9a-fA-F]+|0[0-7]+/`
(number, line 172), with the JS regex's ordered alternation. -/
def numChars (l : List Char) : Option (List Char) :=
  let d1 := l.takeWhile Char.isDigit
  let alt1 :=
    if d1.isEmpty then none
    else
      match l.drop d1.length with
      | '.' :: rest2 =>
        let d2 := rest2.takeWhile Char.isDigit
        if d2.isEmpty then none
        else some (d1 ++ '.' :: d2 ++ expChars (rest2.drop d2.length))
      | _ => none
  match alt1 with
  | some w => some w
  | none =>
    if !d1.isEmpty then some d1
    else
      match l with
      | '0' :: 'x' :: rest2 =>
        let h := rest2.takeWhile (fun c => c.isDigit || ('a' ≤ c && c ≤ 'f') || ('A' ≤ c && c ≤ 'F'))
        if h.isEmpty then none else some ('0' :: 'x' :: h)
      | '0' :: rest2 =>
        let o := rest2.takeWhile (fun c => '0' ≤ c && c ≤ '7')
        if o.isEmpty then none else some ('0' :: o)
      | _ => none

/-- Body loop of `/\/(?:[^\\\/]|\\.)*\//` (regexp, line 173): consume
either a backslash escape (backslash plus any non-newline character) or
any single character other than backslash and slash; stop otherwise. -/
def reBody : List Char → (List Char × List Char)
  | [] => ([], [])
  | '\\' :: c :: rest =>
    if c = '\n' || c = '\r' then ([], '\\' :: c :: rest)
    else
      match reBody rest with
      | (b, r) => ('\\' :: c :: b, r)
  | c :: rest =>
    if c = '\\' || c = '/' then ([], c :: rest)
    else
      match reBody rest with
      | (b, r) => (c :: b, r)

def regexpChars (l : List Char) : Option (List Char) :=
  match l with
  | '/' :: rest =>
    match reBody rest with
    | (b, r) =>
      match r with
      | '/' :: _ => some ('/' :: b ++ ['/'])
      | _ => none
  | _ => none

/-- `terminal(parser)` (line 163): wrap the matched text in a fresh
node. -/
def terminalNode (p : Parser (List Char)) : Parser RNode :=
  pmap (fun w => RNode.mk (String.mk w) [] [] none) p

/-- `positional(parser)` (line 154, spec section 4.2 `records_position`):
tag the produced node with the raw offset at which the match began. -/
def positional (p : Parser RNode) : Parser RNode := fun st =>
  (p st).map (fun r => (r.1.withPos (some (.raw st.off)), r.2))

/-- `rt(regexp)` (line 164): regex terminal with recorded position. -/
def rt (m : List Char → Option (List Char)) : Parser RNode :=
  positional (terminalNode (pregex m))

def whitespaceP : Parser (List Char) := pregex whitespaceChars

def line_comment : Parser RNode := rt lineCommentChars

def identifier : Parser RNode := rt identChars

def globalP : Parser RNode := rt globalChars

def instance_variable : Parser RNode := rt ivarChars

def number : Parser RNode := rt numChars

def regexpLit : Parser RNode := rt regexpChars

/-- `symbol` (line 171): a colon, then an identifier, global or instance
variable, re-tagged as a single `:name` leaf (fresh node, no recorded
position). -/
def symbolP : Parser RNode :=
  pmap (fun n => RNode.mk (":" ++ n.data) [] [] none)
    (pbfs (pstringL ":") (palt identifier (palt globalP instance_variable)))

/-- `literal` (line 175). -/
def literal : Parser RNode :=
  palt globalP (palt symbolP (palt number regexpLit))

/-- Skip optional whitespace (`wo`, line 152). -/
def pwsOpt (st : PState) : PState :=
  advance st (st.rest.takeWhile isJsSpace).length

/-- `co(parser)` (line 151): optionally consume leading line comments and
attach each captured comment node to the parsed element (spec section
4.2). -/
def pco (p : Parser RNode) : Parser RNode := fun st =>
  match pmanyOpt line_comment st with
  | (cs, st1) =>
    match p st1 with
    | none => none
    | some (n, st2) => some (n.addComments cs, st2)

/-- `si(parser) = wo(co(parser))` (line 153). -/
def psi (p : Parser RNode) : Parser RNode := fun st => pco p (pwsOpt st)

/-- `si` applied to a bare string token (used for the group delimiters):
whitespace and comments are consumed before the token; captured comments
have no node to land on, a corner no exercised input reaches. -/
def psiStr (p : Parser (List Char)) : Parser (List Char) := fun st =>
  let st1 := pwsOpt st
  match pmanyOpt line_comment st1 with
  | (_, st2) => p st2

/-- `one_of(xs)` (line 188): ordered alternation over literal tokens. -/
def one_of (ts : List String) : Parser (List Char) :=
  ts.foldr (fun t acc => palt (pstringL t) acc) pfail

/-- `unary_operator` (line 190), in source order. -/
def unary_operator : Parser RNode :=
  psi (terminalNode (one_of ["~", "!", "+", "-", "not", "defined?"]))

/-- The `binary_operator` token list (lines 191-193), in source order:
ops1 then ops2. -/
def binOps : List String :=
  [".", "**", "*", "/", "%", "+", "-", "<<", ">>", "&", "|", "^",
   "<", "<=", ">", ">=", "<=>", "==", "===", "!=", "=~", "!~", "&&", "||",
   "..", "...", "rescue", "=", "+=", "-=", "*=", "/=", "%=", "**=",
   "<<=", ">>=", "&=", "^=", "|=", "&&=", "||=",
   "and", "or", "if", "unless", "while", "until"]

def binary_operator : Parser RNode :=
  psi (terminalNode (one_of binOps))

/-!
## Expression grammar (lines 199-203)

The recursive productions are parameterized by the recursive expression
parser and tied with a fuel argument: `expression (k+1)` feeds
`expression k` to its sub-productions, and every recursive entry into the
expression production consumes at least one character first, so fuel
`input length + 1` is never exhausted on the inputs evaluated here.
-/

/-- `group` (line 199): `si('(') expression si(')')`, producing a fresh
single-child node tagged `"("` (no recorded position). -/
def groupP (e : Parser RNode) : Parser RNode :=
  pmap (fun t => RNode.mk "(" [t.2.1] [] none)
    (pbfc3 (psiStr (pstringL "(")) e (psiStr (pstringL ")")))

/-- `leaf` (line 176): `identifier / group / instance_variable / literal`,
space-insensitive. -/
def leafP (e : Parser RNode) : Parser RNode :=
  psi (palt identifier (palt (groupP e) (palt instance_variable literal)))

/-- `binary` (line 201): `leaf binary_operator expression`, zipped and
passed through the precedence fixup. -/
def binaryP (e : Parser RNode) : Parser RNode :=
  pmap fix_precedence
    (pmap (fun t => zip_binary t.1 t.2.1 t.2.2)
      (pbfc3 (leafP e) binary_operator e))

/-- `unary` (line 202): `unary_operator expression`, zipped. -/
def unaryP (e : Parser RNode) : Parser RNode :=
  pmap (fun t => zip_unary t.1 t.2) (pbfc2 unary_operator e)

/-- `expression` (line 203): `binary / unary / leaf`, space-insensitive,
with a fuel bound on the recursion. -/
def expression : Nat → Parser RNode
  | 0 => pfail
  | Nat.succ k =>
    psi (palt (binaryP (expression k)) (palt (unaryP (expression k)) (leafP (expression k))))

/-- `$.ruby.parser` applied to a fresh state over the input, as in
`$.ruby.parse` (lines 87-90): run the expression grammar from offset 0
(see the header note on the entry point) and keep the first resulting
state.  No end-of-input condition is imposed. -/
def parseState (s : List Char) : Option (RNode × PState) :=
  expression (s.length + 1) ⟨s, 0⟩

/-- `$.ruby.parse(s)` (lines 87-90): run the parser, then rewrite the raw
tree through the position table built from the same input. -/
def parse (s : List Char) : Option RNode :=
  (parseState s).map (fun r => position_map (posTable s) r.1)

/-- The input left unconsumed by the state `$.ruby.parse` keeps. -/
def parseRest (s : List Char) : Option (List Char) :=
  (parseState s).map (fun r => r.2.rest)

/-- The tag/children skeleton of a tree, used to state the grammar shape
contract (spec section 6) independently of metadata. -/
inductive Shape where
  | node (data : String) (children : List Shape)

mutual

def Shape.decEq : (a b : Shape) → Decidable (a = b)
  | .node d1 c1, .node d2 c2 =>
    if hd : d1 = d2 then
      match Shape.decEqList c1 c2 with
      | isTrue hc => isTrue (by rw [hd, hc])
      | isFalse hc => isFalse (by intro h; injection h; contradiction)
    else isFalse (by intro h; injection h; contradiction)

def Shape.decEqList : (a b : List Shape) → Decidable (a = b)
  | [], [] => isTrue rfl
  | [], _ :: _ => isFalse (by intro h; injection h)
  | _ :: _, [] => isFalse (by intro h; injection h)
  | x :: xs, y :: ys =>
    match Shape.decEq x y, Shape.decEqList xs ys with
    | isTrue h1, isTrue h2 => isTrue (by rw [h1, h2])
    | isFalse h1, _ => isFalse (by intro h; injection h; contradiction)
    | _, isFalse h2 => isFalse (by intro h; injection h; contradiction)

end

instance : DecidableEq Shape := Shape.decEq

mutual

def shapeOf : RNode → Shape
  | .mk d cs _ _ => .node d (shapeOfList cs)

def shapeOfList : List RNode → List Shape
  | [] => []
  | t :: ts => shapeOf t :: shapeOfList ts

end

mutual

/-- Every node reachable through the children lists has no position
stored (`none` models the JS null/undefined slot). -/
def allPosNone : RNode → Bool
  | .mk _ cs _ p => p.isNone && allPosNoneL cs

def allPosNoneL : List RNode → Bool
  | [] => true
  | t :: ts => allPosNone t && allPosNoneL ts

end

/-- The rotation criterion exactly as claim C1 words it: "op2 binds at
least as tightly as op1 -- strictly tighter, or equally tight when op1 is
left-associative", where op1 tags the reduced node, op2 tags its right
child, and a smaller precedence level means tighter binding.  Stated from
the spec's words, to be compared against what `fix_precedence` does. -/
def claimC1_condition (op1 op2 : String) : Bool :=
  match precedence_of op2, precedence_of op1 with
  | some q2, some q1 => q2 < q1 || (q2 = q1 && !right_associative op1)
  | _, _ => false

/-!
## Theorems
-/

/-- Indexing the position table twice always falls off: the first read
yields either no entry or a resolved record, and `m[x]` is undefined for
both (a resolved record is not a valid array index). -/
theorem jsIndex_jsIndex (m : List LC) (p : Option PosVal) :
    jsIndex m (jsIndex m p) = none := by
  cases p with
  | none => rfl
  | some v =>
    cases v with
    | raw k => cases h : m.get? k <;> simp [jsIndex, h]
    | res lc => rfl

mutual

theorem position_map_twice_node (m : List LC) :
    ∀ t, allPosNone (position_map m (position_map m t)) = true
  | .mk d cs cm p => by
      simp [position_map, allPosNone, jsIndex_jsIndex,
            position_map_twice_children m cs]

theorem position_map_twice_children (m : List LC) :
    ∀ ts, allPosNoneL (position_map_children m (position_map_children m ts)) = true
  | [] => rfl
  | t :: ts => by
      simp [position_map_children, allPosNoneL, position_map_twice_node m t,
            position_map_twice_children m ts]

end

/-- Claim C1, counterexample.  The claim says the fixup rotates
`(op1 left (op2 mid right))` exactly when op2 binds at least as tightly
as op1.  The code does the opposite comparison: with op1 = `*` and
op2 = `+` the claim's criterion is false yet `fix_precedence` rotates
(this is what turns the naive parse of `1 * 2 + 3` into
`(+ (* 1 2) 3)`), and with op1 = `+`, op2 = `*` the claim's criterion
holds yet the node is returned unchanged. -/
theorem C1_claim_counterexample :
    claimC1_condition "*" "+" = false ∧
    fix_precedence
        (.mk "*" [.mk "1" [] [] none,
                  .mk "+" [.mk "2" [] [] none, .mk "3" [] [] none] [] none] [] none) ≠
      (.mk "*" [.mk "1" [] [] none,
                .mk "+" [.mk "2" [] [] none, .mk "3" [] [] none] [] none] [] none) ∧
    claimC1_condition "+" "*" = true ∧
    fix_precedence
        (.mk "+" [.mk "1" [] [] none,
                  .mk "*" [.mk "2" [] [] none, .mk "3" [] [] none] [] none] [] none) =
      (.mk "+" [.mk "1" [] [] none,
                .mk "*" [.mk "2" [] [] none, .mk "3" [] [] none] [] none] [] none) := by
  refine ⟨by decide, by decide, by decide, by decide⟩

/-- Claim C1, amended: for a binary reduction `(op1 left (op2 mid right))`
with both tags in the precedence table, the fixup rotates left exactly
when op1 binds at least as tightly as op2 -- strictly tighter, or equally
tight when op1 is left-associative (the claim had the two operators
swapped) -- and otherwise returns the node unchanged. -/
theorem C1_amended_rotation_criterion (d1 d2 : String) (l m r : RNode)
    (c1 c2 : List RNode) (p1 p2 : Option PosVal) (q1 q2 : Nat)
    (h1 : precedence_of d1 = some q1) (h2 : precedence_of d2 = some q2) :
    ((q1 < q2 ∨ (q1 = q2 ∧ right_associative d1 = false)) →
      fix_precedence (.mk d1 [l, .mk d2 [m, r] c2 p2] c1 p1) =
        rotate_left (.mk d1 [l, .mk d2 [m, r] c2 p2] c1 p1)) ∧
    (¬(q1 < q2 ∨ (q1 = q2 ∧ right_associative d1 = false)) →
      fix_precedence (.mk d1 [l, .mk d2 [m, r] c2 p2] c1 p1) =
        .mk d1 [l, .mk d2 [m, r] c2 p2] c1 p1) := by
  have hfix : fix_precedence (.mk d1 [l, .mk d2 [m, r] c2 p2] c1 p1) =
      if q2 + (if right_associative d1 then 0 else 1) > q1 then
        rotate_left (.mk d1 [l, .mk d2 [m, r] c2 p2] c1 p1)
      else (.mk d1 [l, .mk d2 [m, r] c2 p2] c1 p1) := by
    simp [fix_precedence, RNode.children, RNode.data, h1, h2]
  constructor
  · intro hc
    rw [hfix, if_pos]
    cases hra : right_associative d1 with
    | false => simp [hra] at hc ⊢; omega
    | true => simp [hra] at hc ⊢; omega
  · intro hc
    rw [hfix, if_neg]
    cases hra : right_associative d1 with
    | false => simp [hra] at hc ⊢; omega
    | true => simp [hra] at hc ⊢; omega

/-- Witness for the amended C1 criterion at op1 = `*`, op2 = `+`
(precedences 5 and 6): `*` binds strictly tighter, so the naive
right-nested reduction is rotated left. -/
theorem C1_amended_rotation_criterion_witness :
    fix_precedence
        (.mk "*" [.mk "1" [] [] none,
                  .mk "+" [.mk "2" [] [] none, .mk "3" [] [] none] [] none] [] none) =
      rotate_left
        (.mk "*" [.mk "1" [] [] none,
                  .mk "+" [.mk "2" [] [] none, .mk "3" [] [] none] [] none] [] none) :=
  (C1_amended_rotation_criterion "*" "+" (.mk "1" [] [] none) (.mk "2" [] [] none)
      (.mk "3" [] [] none) [] [] none none 5 6 (by decide) (by decide)).1 (by decide)

/-- Claim C2, evaluation at the failing input.  No snapshot of the module
defines a `def` production (the grammar only has leaf, unary, binary and
group), so on `def x params; body; end` the parser matches the keyword as
a bare identifier leaf and stops, leaving the rest of the input
unconsumed -- not the documented 4-ary `("def" x params body)` tree. -/
theorem C2_def_input_parses_to_bare_leaf :
    parse "def x params; body; end".toList =
      some (.mk "def" [] [] (some (.res ⟨0, 0⟩))) ∧
    parseRest "def x params; body; end".toList = some " x params; body; end".toList := by
  refine ⟨by decide, by decide⟩

/-- Claim C3, evaluation at the failing input.  The unary production
builds its node from the matched operator text itself, so a prefix `+`
yields a node tagged `"+"`, not `"u+"`: the precedence lookup for that
tag hits the binary entry (level 6), while the table's dedicated unary
entry `u+` (level 2, right-associative) is unreachable.  A prefix `!`
yields `"!"`, which has no table entry at all. -/
theorem C3_unary_nodes_carry_binary_tags :
    parse "+x".toList =
      some (.mk "+" [.mk "x" [] [] (some (.res ⟨0, 1⟩))] [] none) ∧
    precedence_of "+" = some 6 ∧
    precedence_of "u+" = some 2 ∧
    right_associative "u+" = true ∧
    right_associative "+" = false ∧
    parse "!x".toList =
      some (.mk "!" [.mk "x" [] [] (some (.res ⟨0, 1⟩))] [] none) ∧
    precedence_of "!" = none := by
  refine ⟨by decide, by decide, by decide, by decide, by decide, by decide, by decide⟩

/-- Claim C4, evaluation at the failing input.  On the module's own
documented example `# hi there\nfoo` the comment node keeps its raw
offset 0 after parsing -- `position_map` recurses through `each`, which
visits children only, never the `_comments` list -- and on `(x)` the
group node tagged `"("` (built without the position-recording filter)
ends with no position at all, while its identifier child is resolved. -/
theorem C4_positions_not_fully_resolved :
    parse "# hi there\nfoo".toList =
      some (.mk "foo" [] [.mk "# hi there\n" [] [] (some (.raw 0))] (some (.res ⟨1, 0⟩))) ∧
    parse "(x)".toList =
      some (.mk "(" [.mk "x" [] [] (some (.res ⟨0, 1⟩))] [] none) := by
  refine ⟨by decide, by decide⟩

/-- Claim C5, counterexample.  A leaf with raw offset 0, mapped through a
one-entry table, resolves to line 0 column 0; mapping it a second time
indexes the table with the resolved record, reads no entry, and erases
the position, so the second pass is not a no-op. -/
theorem C5_claim_counterexample :
    position_map [⟨0, 0⟩] (position_map [⟨0, 0⟩] (RNode.mk "x" [] [] (some (.raw 0)))) ≠
      position_map [⟨0, 0⟩] (RNode.mk "x" [] [] (some (.raw 0))) := by decide

/-- Claim C5, amended: running the position-mapping pass twice is not a
no-op -- after the second application every node reachable through
children has no position left, because the table is indexed by raw
offsets and a position already resolved by the first pass (or absent)
reads no entry. -/
theorem C5_amended_second_pass_erases_positions (m : List LC) (t : RNode) :
    allPosNone (position_map m (position_map m t)) = true :=
  position_map_twice_node m t

/-- Claim C6: the rotation of `(op1 left (op2 mid right))` into
`(op2 (op1 left mid) right)` preserves every attached comment list and
every position slot of the five constituent nodes -- the rebuilt outer
node carries the old inner node's comments and offset, the rebuilt inner
node carries the old outer node's, and `left`, `mid`, `right` are reused
unchanged, so each comment stays reachable from the node occupying the
corresponding post-rotation syntactic position. -/
theorem C6_rotate_left_preserves_metadata (d1 d2 : String) (l m r : RNode)
    (c1 c2 : List RNode) (p1 p2 : Option PosVal) :
    rotate_left (.mk d1 [l, .mk d2 [m, r] c2 p2] c1 p1) =
      .mk d2 [.mk d1 [l, m] c1 p1, r] c2 p2 := rfl

/-- Claim C7, counterexample.  On `x <= y` the parse succeeds and returns
the leaf `x` while the proper suffix ` <= y` is left unconsumed: the
parser does return a tree covering only a proper prefix of the input. -/
theorem C7_claim_counterexample :
    parse "x <= y".toList = some (.mk "x" [] [] (some (.res ⟨0, 0⟩))) ∧
    parseRest "x <= y".toList = some " <= y".toList ∧
    " <= y".toList ≠ [] := by
  refine ⟨by decide, by decide, by decide⟩

/-- Claim C7, amended: parse either returns a tree for an initial segment
matched by the expression grammar -- possibly a proper prefix, since no
end-of-input check is made -- or fails producing no tree at all (here `%`
matches no alternative). -/
theorem C7_amended_no_completeness_check :
    parse "%".toList = none ∧
    (parse "x <= y".toList).isSome = true ∧
    (parseRest "x <= y".toList).map List.length = some 5 := by
  refine ⟨by decide, by decide, by decide⟩

/-- Claim C8, counterexample.  For the non-empty input consisting of a
single newline, entry 0 of the position table is line 1, column -1 (the
line counter increments at the newline and its column is recorded as -1),
not line 0, column 0. -/
theorem C8_claim_counterexample :
    (posTable ['\n']).head? = some (⟨1, -1⟩ : LC) ∧ (⟨1, -1⟩ : LC) ≠ ⟨0, 0⟩ := by
  refine ⟨by decide, by decide⟩

/-- Claim C8, amended: entry 0 of the position table is line 0, column 0
whenever the first character is not a newline; when it is a newline,
entry 0 is line 1, column -1 per the newline convention. -/
theorem C8_amended_entry_zero (c : Char) (s : List Char) :
    (posTable (c :: s)).head? =
      some (if c = '\n' then (⟨1, -1⟩ : LC) else ⟨0, 0⟩) := by
  by_cases h : c = '\n' <;> simp [posTable, posTableAux, h]

/-- Claim C9: `2 ** 3 ** 2` parses to `("**" 2 ("**" 3 2))` -- `**` is in
the right-associativity set, the equal-precedence comparison in the
fixup does not fire, and the naturally right-nested reduction is kept. -/
theorem C9_power_right_associative :
    (parse "2 ** 3 ** 2".toList).map shapeOf =
      some (.node "**" [.node "2" [], .node "**" [.node "3" [], .node "2" []]]) := by
  decide

/-- Claim C10: the binary-operator alternation tries its tokens in list
order, so at ` <= y` it commits to `<` (leaving `= y`); the binary
production then fails on `= y`, the expression alternation falls back to
its leaf alternative, and the parse returns the bare leaf `x` with
` <= y` unconsumed -- never the tree `("<=" x y)`. -/
theorem C10_ordered_alternation_lt_before_le :
    binary_operator ⟨" <= y".toList, 1⟩ =
      some (.mk "<" [] [] none, ⟨"= y".toList, 3⟩) ∧
    binaryP (expression 6) ⟨"x <= y".toList, 0⟩ = none ∧
    parse "x <= y".toList = some (.mk "x" [] [] (some (.res ⟨0, 0⟩))) ∧
    parseRest "x <= y".toList = some " <= y".toList ∧
    (parse "x <= y".toList).map shapeOf ≠
      some (.node "<=" [.node "x" [], .node "y" []]) := by
  refine ⟨by decide, by decide, by decide, by decide, by decide⟩

end CaterwaulRuby
